import Mathlib

/-!
Verification of the KrypticTrack Action Ingestion, Retention & Aggregation
Engine and of its capture clients (Chrome background script, VS Code
extension) and frontend API client.

The retention/aggregation engine itself ships as a Flask backend that is not
part of the checked-in sources; its behaviour is modelled here directly from
the specification (data model in spec section 3, operations in sections
4.2 to 4.5).  The capture-client and frontend definitions are shallow
embeddings of the checked-in JavaScript/TypeScript sources.
-/

namespace KT

/-! ## Data model (modelled from the spec, section 3) -/

/-- Modelled from the spec: one captured event (ActionRecord, spec section 3).
The backend store implementation is not among the checked-in sources. -/
structure ActionRecord where
  id : Nat
  timestamp : Nat
  source : String
  action_type : String
  context : String
  deriving DecidableEq, Repr

/-- Modelled from the spec: bucket granularity, hour or day. -/
inductive Granularity where
  | hour
  | day
  deriving DecidableEq, Repr

/-- Modelled from the spec: aggregation dimension of a bucket. -/
inductive Dimension where
  | bySource (s : String)
  | byActionType (a : String)
  deriving DecidableEq, Repr

/-- Modelled from the spec: key of a permanent AggregateBucket. -/
structure BucketKey where
  gran : Granularity
  bucket_start : Nat
  dim : Dimension
  deriving DecidableEq, Repr

/-- Modelled from the spec: kind of a row the retention engine must never touch. -/
inductive ArtifactKind where
  | insight
  | prediction
  | trainingRun
  deriving DecidableEq, Repr

/-- Modelled from the spec: a RetainedArtifact (insight, prediction,
training-run record), identified by id and content. -/
structure RetainedArtifact where
  id : Nat
  kind : ArtifactKind
  content : String
  deriving DecidableEq, Repr

/-- Modelled from the spec: the persisted engine state: the Action Store rows,
the AggregateBucket table (association list of key and count), the
high-water mark of the last record id folded into the aggregates, and the
RetainedArtifact tables. -/
structure Store where
  actions : List ActionRecord
  aggregates : List (BucketKey × Nat)
  hwm : Nat
  retained : List RetainedArtifact
  deriving DecidableEq, Repr

/-- Modelled from the spec: the report returned by a cleanup cycle. -/
structure Report where
  aggregated : Nat
  sampled_kept : Nat
  deleted : Nat
  deriving DecidableEq, Repr

/-! ## Aggregation Engine (modelled from the spec, section 4.3) -/

/-- Start of the hour window containing a timestamp (seconds since epoch). -/
def hourStart (t : Nat) : Nat := t / 3600 * 3600

/-- Start of the day window containing a timestamp (seconds since epoch). -/
def dayStart (t : Nat) : Nat := t / 86400 * 86400

/-- Modelled from the spec: the four bucket keys a record contributes to:
(hour, source), (hour, action_type), (day, source), (day, action_type). -/
def bucketKeys (r : ActionRecord) : List BucketKey :=
  [⟨Granularity.hour, hourStart r.timestamp, Dimension.bySource r.source⟩,
   ⟨Granularity.hour, hourStart r.timestamp, Dimension.byActionType r.action_type⟩,
   ⟨Granularity.day, dayStart r.timestamp, Dimension.bySource r.source⟩,
   ⟨Granularity.day, dayStart r.timestamp, Dimension.byActionType r.action_type⟩]

/-- Increment the count stored under a key, creating the bucket lazily. -/
def bump : List (BucketKey × Nat) → BucketKey → List (BucketKey × Nat)
  | [], k => [(k, 1)]
  | (k', n) :: rest, k =>
      if k' = k then (k', n + 1) :: rest else (k', n) :: bump rest k

/-- Modelled from the spec: fold one record into its four buckets. -/
def record_into_aggregates (r : ActionRecord) (aggs : List (BucketKey × Nat)) :
    List (BucketKey × Nat) :=
  (bucketKeys r).foldl bump aggs

/-- Fold a batch of records into the aggregates, in order. -/
def aggregateAll (rs : List ActionRecord) (aggs : List (BucketKey × Nat)) :
    List (BucketKey × Nat) :=
  rs.foldl (fun a r => record_into_aggregates r a) aggs

/-- Total count recorded under a key. -/
def aggCount : List (BucketKey × Nat) → BucketKey → Nat
  | [], _ => 0
  | (k', n) :: rest, k => (if k' = k then n else 0) + aggCount rest k

/-- Number of occurrences of a key in a key list. -/
def keyCount : List BucketKey → BucketKey → Nat
  | [], _ => 0
  | k' :: rest, k => (if k' = k then 1 else 0) + keyCount rest k

/-- Total contribution of a batch of records to one bucket: every record
counted exactly once. -/
def tally (rs : List ActionRecord) (k : BucketKey) : Nat :=
  (rs.map (fun r => keyCount (bucketKeys r) k)).sum

/-- Modelled from the spec: the AGGREGATING step.  Using the high-water-mark
design of spec section 4.3, it folds exactly the records with id above the
mark into the aggregates and advances the mark over them. -/
def aggregateStep (s : Store) : Store :=
  { s with
    aggregates :=
      aggregateAll (s.actions.filter (fun r => decide (s.hwm < r.id))) s.aggregates,
    hwm :=
      (s.actions.filter (fun r => decide (s.hwm < r.id))).foldl
        (fun m r => max m r.id) s.hwm }

/-! ## Retention & Sampling Engine and Cleanup Orchestrator
(modelled from the spec, sections 4.2, 4.4, 4.5) -/

/-- Modelled from the spec: a record is deleted by `delete_older_than` exactly
when its timestamp is below the cutoff and its id is not among the sampled
survivors. -/
def toDelete (cutoff : Nat) (keepIds : List Nat) (r : ActionRecord) : Bool :=
  decide (r.timestamp < cutoff ∧ ¬ r.id ∈ keepIds)

/-- Modelled from the spec: `delete_older_than(cutoff, keep_ids)` deletes all
records with timestamp below the cutoff except the sampled survivors, as one
atomic operation, and returns the count deleted. -/
def delete_older_than (cutoff : Nat) (keepIds : List Nat) (s : Store) :
    Store × Nat :=
  ({ s with actions := s.actions.filter (fun r => ! toDelete cutoff keepIds r) },
   (s.actions.filter (fun r => toDelete cutoff keepIds r)).length)

/-- Modelled from the spec: the SAMPLING step.  The Bernoulli coin of spec
section 4.4 is abstracted as the decision function `keep`; the step returns
the ids of the candidate records (older than the cutoff) selected for
retention. -/
def samplingStep (cutoff : Nat) (keep : ActionRecord → Bool) (s : Store) :
    List Nat :=
  (s.actions.filter (fun r => decide (r.timestamp < cutoff) && keep r)).map
    (fun r => r.id)

/-- Modelled from the spec: one cleanup cycle at a fixed cutoff:
AGGREGATING, then SAMPLING, then DELETING; a dry run performs the
aggregation check and sampling selection but mutates nothing. -/
def cleanupCore (dry_run : Bool) (cutoff : Nat) (keep : ActionRecord → Bool)
    (s : Store) : Store × Report :=
  let fresh := s.actions.filter (fun r => decide (s.hwm < r.id))
  let s1 := aggregateStep s
  let keepIds := samplingStep cutoff keep s1
  if dry_run then
    (s, { aggregated := fresh.length, sampled_kept := keepIds.length,
          deleted := (s1.actions.filter (fun r => toDelete cutoff keepIds r)).length })
  else
    let del := delete_older_than cutoff keepIds s1
    (del.1, { aggregated := fresh.length, sampled_kept := keepIds.length,
              deleted := del.2 })

/-- Modelled from the spec: `run_cleanup(dry_run, keep_days)` with the cutoff
computed from the current time. -/
def run_cleanup (dry_run : Bool) (keep_days : Nat) (now : Nat)
    (keep : ActionRecord → Bool) (s : Store) : Store × Report :=
  cleanupCore dry_run (now - keep_days * 86400) keep s

/-- Modelled from the spec: the stage of the cleanup state machine at which a
`CleanupCycleError` can be raised. -/
inductive CleanupStage where
  | aggregating
  | sampling
  | deleting
  deriving DecidableEq, Repr

/-- Fault injection: which stages of a cycle fail. -/
structure FaultModel where
  failAggregating : Bool
  failSampling : Bool
  failDeleting : Bool
  deriving DecidableEq, Repr

/-- Modelled from the spec: a fallible cleanup cycle.  A failing stage aborts
the cycle; the delete step is a single atomic operation, so a failure during
DELETING applies none of it.  On error the result carries the store as the
cycle leaves it. -/
def run_cleanupE (fm : FaultModel) (cutoff : Nat) (keep : ActionRecord → Bool)
    (s : Store) : Except (CleanupStage × Store) (Store × Report) :=
  if fm.failAggregating then Except.error (CleanupStage.aggregating, s)
  else
    let fresh := s.actions.filter (fun r => decide (s.hwm < r.id))
    let s1 := aggregateStep s
    if fm.failSampling then Except.error (CleanupStage.sampling, s1)
    else
      let keepIds := samplingStep cutoff keep s1
      if fm.failDeleting then Except.error (CleanupStage.deleting, s1)
      else
        let del := delete_older_than cutoff keepIds s1
        Except.ok (del.1, { aggregated := fresh.length,
                            sampled_kept := keepIds.length, deleted := del.2 })

/-- The store a fallible cycle leaves behind, on either outcome. -/
def storeOfE (x : Except (CleanupStage × Store) (Store × Report)) : Store :=
  match x with
  | Except.error (_, s) => s
  | Except.ok (s, _) => s

/-! ## Capture clients (embedded from the checked-in sources) -/

/-- A JSON value, as far as the client payloads need. -/
inductive JVal where
  | str (s : String)
  | num (n : Int)
  | obj (fields : List (String × JVal))

/-- Top-level field names of a JSON object. -/
def jsonKeys (fields : List (String × JVal)) : List String :=
  fields.map Prod.fst

/-- First value stored under a top-level field name, if any. -/
def lookupField : List (String × JVal) → String → Option JVal
  | [], _ => none
  | (k', v) :: rest, k => if k' == k then some v else lookupField rest k

/-- Embedded from the Chrome background script: the body `logAction`
serializes for `POST /api/log-action` is exactly
`{source: "chrome", action_type, context}`. -/
def chromeLogActionBody (actionType : String) (context : JVal) :
    List (String × JVal) :=
  [("source", JVal.str "chrome"),
   ("action_type", JVal.str actionType),
   ("context", context)]

/-- Embedded from the VS Code extension: the body
`KrypticTrackLogger.logAction` posts to `/api/log-action` is exactly
`{source: "vscode", action_type, context}`. -/
def vscodeLogActionBody (actionType : String) (context : JVal) :
    List (String × JVal) :=
  [("source", JVal.str "vscode"),
   ("action_type", JVal.str actionType),
   ("context", context)]

/-- Modelled from the spec: the ingestion entrypoint's timestamp assignment
(the Flask backend is not among the checked-in sources): the server assigns
`timestamp` if the payload carries none, otherwise uses the source-supplied
value. -/
def assignTimestamp (body : List (String × JVal)) (serverNow : Int) : Int :=
  match lookupField body "timestamp" with
  | some (JVal.num t) => t
  | _ => serverNow

/-- Embedded from the Chrome background script's `chrome.runtime.onMessage`
listener: given the content-script message type, the `action_type` of the
`logAction` call the handler issues, or `none` when the handler returns
without logging.  The branch order and the dead branches
(`false && message.type === "mouse_move"` and the statements after an early
`return`) mirror the source. -/
def handleContentMessage (t : String) : Option String :=
  if t == "scroll" then some "scroll"
  else if t == "scroll_checkpoint" then some "scroll_checkpoint"
  else if t == "keystroke" then some "keystroke"
  else if t == "keyup" then some "keyup"
  else if t == "mouse_move" then none
  else if false && t == "mouse_move" then some "mouse_move"
  else if t == "mouse_click" then some "mouse_click"
  else if t == "mouse_enter" || t == "mouse_leave" then none
  else if t == "input_focus" || t == "input_blur" then some t
  else if t == "text_select" then some "text_select"
  else if t == "copy" || t == "paste" then some t
  else if t == "dom_change" then none
  else if t == "image_load" then some "image_load"
  else if t == "window_resize" then some "window_resize"
  else if t == "window_focus" || t == "window_blur" || t == "page_visibility" then some t
  else if t == "video_seek" then some "video_seek"
  else if t == "form_input" then some "form_input"
  else if t == "form_submit" then some "form_submit"
  else if t == "activity_summary" then some "activity_summary"
  else if t == "page_exit" then some "page_exit"
  else if t == "video_play" then some "video_play"
  else if t == "video_pause" then some "video_pause"
  else if t == "video_progress" then some "video_progress"
  else if t == "github_repo_view" then some "github_repo_view"
  else if t == "github_file_view" then some "github_file_view"
  else if t == "search" then some "search"
  else if t == "video_watch" then some "video_watch"
  else none

/-! ## Frontend API client (embedded from the TypeScript source) -/

/-- Embedded from the frontend `ApiService`: the result shape
`{data?, error?, success?}`. -/
structure ApiResponse (α : Type) where
  data : Option α := none
  error : Option String := none
  success : Option Bool := none
  deriving Repr

/-- The outcome of the `fetch` call and subsequent `response.json()` as the
environment presents it to `ApiService.request`: either a response object
(with its `ok` flag, status, status text, and a JSON body that parses or
throws), or a value thrown before a response exists (network failure, abort
signal), which may or may not be an `Error` instance. -/
inductive FetchOutcome (α : Type) where
  | response (ok : Bool) (status : Nat) (statusText : String)
      (body : Except String α)
  | thrown (isErrorInstance : Bool) (message : String)
  deriving Repr

/-- Embedded from the frontend `ApiService.request`: the whole body sits in a
try/catch, so every outcome maps to a returned `ApiResponse`: a non-ok
response returns only `error`; a thrown value (network error, abort, JSON
parse failure) is caught and returns only `error` (`message` when it is an
`Error` instance, `"Unknown error"` otherwise); a parsed body returns
`{data, success: true}`. -/
def request {α : Type} (o : FetchOutcome α) : ApiResponse α :=
  match o with
  | FetchOutcome.thrown isErr msg =>
      { error := some (if isErr then msg else "Unknown error") }
  | FetchOutcome.response ok status statusText body =>
      if ! ok then
        { error := some ("HTTP " ++ toString status ++ ": " ++ statusText) }
      else
        match body with
        | Except.ok d => { data := some d, success := some true }
        | Except.error e => { error := some e }

/-- Whether the fetch outcome is a fully successful one: an `ok` response
whose body parses. -/
def isSuccessOutcome {α : Type} (o : FetchOutcome α) : Bool :=
  match o with
  | FetchOutcome.response true _ _ (Except.ok _) => true
  | _ => false

/-! ## Helper lemmas: bucket counting -/

theorem aggCount_bump (aggs : List (BucketKey × Nat)) (k k' : BucketKey) :
    aggCount (bump aggs k) k' = aggCount aggs k' + (if k = k' then 1 else 0) := by
  induction aggs with
  | nil => simp [bump, aggCount]
  | cons p rest ih =>
    obtain ⟨k0, n⟩ := p
    by_cases h : k0 = k
    · subst h
      simp only [bump, if_pos rfl, aggCount]
      by_cases h' : k0 = k'
      · simp only [if_pos h']
        omega
      · simp only [if_neg h']
        omega
    · simp only [bump, if_neg h, aggCount, ih]
      omega

theorem aggCount_foldl_bump (ks : List BucketKey) (aggs : List (BucketKey × Nat))
    (k : BucketKey) :
    aggCount (ks.foldl bump aggs) k = aggCount aggs k + keyCount ks k := by
  induction ks generalizing aggs with
  | nil => simp [keyCount]
  | cons k0 rest ih =>
    simp only [List.foldl_cons, ih, aggCount_bump, keyCount]
    omega

theorem aggCount_record (r : ActionRecord) (aggs : List (BucketKey × Nat))
    (k : BucketKey) :
    aggCount (record_into_aggregates r aggs) k
      = aggCount aggs k + keyCount (bucketKeys r) k :=
  aggCount_foldl_bump (bucketKeys r) aggs k

theorem tally_cons (r : ActionRecord) (rs : List ActionRecord) (k : BucketKey) :
    tally (r :: rs) k = keyCount (bucketKeys r) k + tally rs k := by
  simp [tally]

theorem aggCount_aggregateAll (rs : List ActionRecord)
    (aggs : List (BucketKey × Nat)) (k : BucketKey) :
    aggCount (aggregateAll rs aggs) k = aggCount aggs k + tally rs k := by
  induction rs generalizing aggs with
  | nil => simp [aggregateAll, tally]
  | cons r rest ih =>
    have h1 : aggregateAll (r :: rest) aggs
        = aggregateAll rest (record_into_aggregates r aggs) := rfl
    rw [h1, ih, aggCount_record, tally_cons]
    omega

/-! ## Helper lemmas: the high-water mark -/

theorem le_foldl_max (l : List ActionRecord) (a : Nat) :
    a ≤ l.foldl (fun m r => max m r.id) a := by
  induction l generalizing a with
  | nil => simp
  | cons r rest ih =>
    exact le_trans (le_max_left a r.id) (ih (max a r.id))

theorem mem_le_foldl_max (l : List ActionRecord) (a : Nat) (r : ActionRecord)
    (h : r ∈ l) : r.id ≤ l.foldl (fun m r => max m r.id) a := by
  induction l generalizing a with
  | nil => cases h
  | cons x rest ih =>
    rcases List.mem_cons.mp h with h1 | h2
    · subst h1
      exact le_trans (le_max_right a r.id) (le_foldl_max rest (max a r.id))
    · exact ih (max a x.id) h2

theorem aggregateStep_actions (s : Store) : (aggregateStep s).actions = s.actions := rfl

theorem aggregateStep_retained (s : Store) :
    (aggregateStep s).retained = s.retained := rfl

theorem id_le_hwm (s : Store) (r : ActionRecord) (h : r ∈ s.actions) :
    r.id ≤ (aggregateStep s).hwm := by
  by_cases hc : s.hwm < r.id
  · refine mem_le_foldl_max _ _ _ ?_
    rw [List.mem_filter]
    exact ⟨h, by simpa using hc⟩
  · exact le_trans (le_of_not_lt hc) (le_foldl_max _ _)

theorem Store.ext' (a b : Store) (h1 : a.actions = b.actions)
    (h2 : a.aggregates = b.aggregates) (h3 : a.hwm = b.hwm)
    (h4 : a.retained = b.retained) : a = b := by
  cases a; cases b; simp_all

theorem aggregateStep_idem (s : Store) :
    aggregateStep (aggregateStep s) = aggregateStep s := by
  have hnil : (aggregateStep s).actions.filter
      (fun r => decide ((aggregateStep s).hwm < r.id)) = [] := by
    rw [List.filter_eq_nil_iff]
    intro r hr
    have h1 : r.id ≤ (aggregateStep s).hwm := id_le_hwm s r hr
    simp [not_lt.mpr h1]
  refine Store.ext' _ _ rfl ?_ ?_ rfl
  · show aggregateAll ((aggregateStep s).actions.filter
        (fun r => decide ((aggregateStep s).hwm < r.id)))
        (aggregateStep s).aggregates = (aggregateStep s).aggregates
    rw [hnil]
    rfl
  · show ((aggregateStep s).actions.filter
        (fun r => decide ((aggregateStep s).hwm < r.id))).foldl
        (fun m r => max m r.id) (aggregateStep s).hwm = (aggregateStep s).hwm
    rw [hnil]
    rfl

/-! ## Helper lemmas: deletion and sampling -/

theorem delete_fst_actions (cutoff : Nat) (keepIds : List Nat) (s : Store) :
    ((delete_older_than cutoff keepIds s).1).actions
      = s.actions.filter (fun r => ! toDelete cutoff keepIds r) := rfl

theorem toDelete_eq_false (cutoff : Nat) (keepIds : List Nat) (r : ActionRecord) :
    toDelete cutoff keepIds r = false ↔
      ¬ (r.timestamp < cutoff ∧ ¬ r.id ∈ keepIds) := by
  simp [toDelete]

theorem mem_delete_iff (cutoff : Nat) (keepIds : List Nat) (s : Store)
    (r : ActionRecord) :
    r ∈ ((delete_older_than cutoff keepIds s).1).actions ↔
      r ∈ s.actions ∧ ¬ (r.timestamp < cutoff ∧ ¬ r.id ∈ keepIds) := by
  rw [delete_fst_actions, List.mem_filter, Bool.not_eq_true',
    toDelete_eq_false]

theorem mem_samplingStep (cutoff : Nat) (keep : ActionRecord → Bool) (s : Store)
    (i : Nat) :
    i ∈ samplingStep cutoff keep s ↔
      ∃ r, r ∈ s.actions ∧ r.timestamp < cutoff ∧ keep r = true ∧ r.id = i := by
  simp only [samplingStep, List.mem_map, List.mem_filter, Bool.and_eq_true,
    decide_eq_true_eq]
  tauto

theorem cleanupCore_false_fst (cutoff : Nat) (keep : ActionRecord → Bool)
    (s : Store) :
    (cleanupCore false cutoff keep s).1
      = (delete_older_than cutoff (samplingStep cutoff keep (aggregateStep s))
          (aggregateStep s)).1 := rfl

theorem cleanupCore_false_actions (cutoff : Nat) (keep : ActionRecord → Bool)
    (s : Store) :
    ((cleanupCore false cutoff keep s).1).actions
      = s.actions.filter
          (fun r => ! toDelete cutoff
            (samplingStep cutoff keep (aggregateStep s)) r) := rfl

theorem cleanupCore_false_deleted (cutoff : Nat) (keep : ActionRecord → Bool)
    (s : Store) :
    ((cleanupCore false cutoff keep s).2).deleted
      = ((aggregateStep s).actions.filter
          (fun r => toDelete cutoff
            (samplingStep cutoff keep (aggregateStep s)) r)).length := rfl

theorem survivor_not_deleted_again (cutoff : Nat) (keep : ActionRecord → Bool)
    (s : Store) (r : ActionRecord)
    (hr : r ∈ ((cleanupCore false cutoff keep s).1).actions) :
    toDelete cutoff
      (samplingStep cutoff keep (aggregateStep (cleanupCore false cutoff keep s).1))
      r = false := by
  rw [cleanupCore_false_actions, List.mem_filter, Bool.not_eq_true',
    toDelete_eq_false] at hr
  obtain ⟨hmem, hkeep⟩ := hr
  rw [toDelete_eq_false]
  intro ⟨hts, hnotin⟩
  have hin1 : r.id ∈ samplingStep cutoff keep (aggregateStep s) := by
    by_contra hno
    exact hkeep ⟨hts, hno⟩
  rw [mem_samplingStep] at hin1
  obtain ⟨r', hr'mem, hr'ts, hr'keep, hr'id⟩ := hin1
  apply hnotin
  rw [mem_samplingStep]
  refine ⟨r', ?_, hr'ts, hr'keep, hr'id⟩
  rw [aggregateStep_actions, cleanupCore_false_actions, List.mem_filter,
    Bool.not_eq_true', toDelete_eq_false]
  refine ⟨hr'mem, fun h => h.2 ?_⟩
  rw [hr'id]
  by_contra hno
  exact hkeep ⟨hts, hno⟩

/-! ## Concrete example data (used by the witnesses) -/

/-- Example record older than any positive cutoff. -/
def rOld : ActionRecord := ⟨1, 0, "browser", "tab_switch", "ctx-old"⟩

/-- Example record inside the fidelity window for cutoff 50. -/
def rNew : ActionRecord := ⟨2, 1000, "editor", "file_save", "ctx-new"⟩

/-- Example store holding one old record and one artifact. -/
def sEx : Store := ⟨[rOld], [], 0, [⟨7, ArtifactKind.insight, "insight-7"⟩]⟩

/-- Example store holding an old and a recent record. -/
def sEx2 : Store := ⟨[rOld, rNew], [], 0, []⟩

/-- Sampling decision that retains nothing. -/
def keepNone : ActionRecord → Bool := fun _ => false

/-- Sampling decision that retains every candidate. -/
def keepAll : ActionRecord → Bool := fun _ => true

/-- Fault model that fails the cycle during the DELETING stage. -/
def fmDel : FaultModel := ⟨false, false, true⟩

/-! ## Claims -/

/-- C1: Aggregate-before-delete ordering: a real cleanup cycle hands the
delete step the store produced by the AGGREGATING step (never the raw one)
and leaves the finalized buckets untouched; every record the cycle deletes
is covered by the high-water mark of that pre-delete store, and every record
not yet folded before the cycle is in the batch whose full contribution the
pre-delete buckets already hold. -/
theorem aggregate_before_delete (cutoff : Nat) (keep : ActionRecord → Bool)
    (s : Store) :
    (cleanupCore false cutoff keep s).1
        = (delete_older_than cutoff (samplingStep cutoff keep (aggregateStep s))
            (aggregateStep s)).1 ∧
    ((cleanupCore false cutoff keep s).1).aggregates
        = (aggregateStep s).aggregates ∧
    (∀ r, r ∈ s.actions → r ∉ ((cleanupCore false cutoff keep s).1).actions →
        r.id ≤ (aggregateStep s).hwm ∧
        (s.hwm < r.id → r ∈ s.actions.filter (fun a => decide (s.hwm < a.id)))) ∧
    (∀ k, aggCount ((aggregateStep s).aggregates) k
        = aggCount s.aggregates k
          + tally (s.actions.filter (fun r => decide (s.hwm < r.id))) k) := by
  refine ⟨rfl, rfl, ?_, ?_⟩
  · intro r hmem _hdel
    refine ⟨id_le_hwm s r hmem, fun hfresh => ?_⟩
    rw [List.mem_filter]
    exact ⟨hmem, by simpa using hfresh⟩
  · intro k
    exact aggCount_aggregateAll _ _ _

/-- Witness for C1: the cycle at cutoff 100 deletes the old record of the
example store, and that record is both covered by the pre-delete high-water
mark and part of the freshly folded batch. -/
theorem aggregate_before_delete_witness :
    rOld.id ≤ (aggregateStep sEx).hwm ∧
    (sEx.hwm < rOld.id →
      rOld ∈ sEx.actions.filter (fun a => decide (sEx.hwm < a.id))) :=
  (aggregate_before_delete 100 keepNone sEx).2.2.1 rOld (by decide) (by decide)

/-- C2: Deletion cutoff correctness: `delete_older_than` keeps exactly the
records that are within the cutoff or sampled survivors (and touches nothing
else), and a full cleanup cycle never removes or modifies a record inside
the fidelity window. -/
theorem delete_cutoff_correct (cutoff : Nat) (keepIds : List Nat)
    (keep : ActionRecord → Bool) (s : Store) (r : ActionRecord) :
    (r ∈ ((delete_older_than cutoff keepIds s).1).actions ↔
        r ∈ s.actions ∧ ¬ (r.timestamp < cutoff ∧ ¬ r.id ∈ keepIds)) ∧
    ((delete_older_than cutoff keepIds s).1).aggregates = s.aggregates ∧
    ((delete_older_than cutoff keepIds s).1).retained = s.retained ∧
    (cutoff ≤ r.timestamp → r ∈ s.actions →
        r ∈ ((cleanupCore false cutoff keep s).1).actions) := by
  refine ⟨mem_delete_iff _ _ _ _, rfl, rfl, ?_⟩
  intro hts hmem
  rw [cleanupCore_false_actions, List.mem_filter, Bool.not_eq_true',
    toDelete_eq_false]
  exact ⟨hmem, fun h => absurd h.1 (not_lt.mpr hts)⟩

/-- Witness for C2: the recent record of the example store survives a real
cleanup cycle at cutoff 50 unchanged. -/
theorem delete_cutoff_correct_witness :
    rNew ∈ ((cleanupCore false 50 keepNone sEx2).1).actions :=
  (delete_cutoff_correct 50 [] keepNone sEx2 rNew).2.2.2 (by decide) (by decide)

/-- C3: RetainedArtifact exclusion: the RetainedArtifact table after any
cleanup run (dry or real, any keep_days, any fault configuration) is the
very list it was before: no deletion or sampling path touches it. -/
theorem retained_artifacts_untouched (dry : Bool) (keep_days now cutoff : Nat)
    (fm : FaultModel) (keep : ActionRecord → Bool) (s : Store) :
    ((run_cleanup dry keep_days now keep s).1).retained = s.retained ∧
    (storeOfE (run_cleanupE fm cutoff keep s)).retained = s.retained := by
  constructor
  · cases dry <;> rfl
  · obtain ⟨a, b, c⟩ := fm
    cases a <;> cases b <;> cases c <;> rfl

/-- C4: Cleanup abort atomicity: a cycle that errors at any stage leaves the
Action Store rows (and RetainedArtifacts) exactly as they were before the
cycle, and a cycle that completes applies the delete step entirely: no
execution produces a partial delete. -/
theorem cleanup_abort_atomic (fm : FaultModel) (cutoff : Nat)
    (keep : ActionRecord → Bool) (s : Store) :
    (∀ st s', run_cleanupE fm cutoff keep s = Except.error (st, s') →
        s'.actions = s.actions ∧ s'.retained = s.retained) ∧
    (∀ s2 rep, run_cleanupE fm cutoff keep s = Except.ok (s2, rep) →
        s2.actions = s.actions.filter
          (fun r => ! toDelete cutoff
            (samplingStep cutoff keep (aggregateStep s)) r)) := by
  obtain ⟨a, b, c⟩ := fm
  constructor
  · intro st s' h
    cases a <;> cases b <;> cases c <;>
      simp only [run_cleanupE, if_true, if_false, Except.error.injEq,
        Prod.mk.injEq, reduceCtorEq] at h
    all_goals first
      | exact h.elim
      | (obtain ⟨h1, h2⟩ := h; subst h2; exact ⟨rfl, rfl⟩)
  · intro s2 rep h
    cases a <;> cases b <;> cases c <;>
      simp only [run_cleanupE, if_true, if_false, Except.ok.injEq,
        Prod.mk.injEq, reduceCtorEq] at h
    all_goals first
      | exact h.elim
      | (obtain ⟨h1, h2⟩ := h; subst h1; rfl)

/-- Witness for C4: a cycle failing during DELETING on the two-record example
store leaves the Action Store rows and the artifacts untouched. -/
theorem cleanup_abort_atomic_witness :
    (aggregateStep sEx2).actions = sEx2.actions ∧
    (aggregateStep sEx2).retained = sEx2.retained :=
  (cleanup_abort_atomic fmDel 50 keepNone sEx2).1 CleanupStage.deleting
    (aggregateStep sEx2) (by rfl)

/-- C5: Cleanup idempotence: running a real cleanup to completion and
immediately running it again with the same parameters deletes nothing the
second time and leaves the store's rows at the fixed point the first run
produced. -/
theorem cleanup_idempotent (keep_days now : Nat) (keep : ActionRecord → Bool)
    (s : Store) :
    ((run_cleanup false keep_days now keep
        ((run_cleanup false keep_days now keep s).1)).2).deleted = 0 ∧
    ((run_cleanup false keep_days now keep
        ((run_cleanup false keep_days now keep s).1)).1).actions
      = ((run_cleanup false keep_days now keep s).1).actions := by
  constructor
  · show ((cleanupCore false (now - keep_days * 86400) keep
        ((cleanupCore false (now - keep_days * 86400) keep s).1)).2).deleted = 0
    rw [cleanupCore_false_deleted, List.length_eq_zero, List.filter_eq_nil_iff]
    intro r hr
    rw [aggregateStep_actions] at hr
    have h := survivor_not_deleted_again (now - keep_days * 86400) keep s r hr
    simp [h]
  · show ((cleanupCore false (now - keep_days * 86400) keep
        ((cleanupCore false (now - keep_days * 86400) keep s).1)).1).actions
      = ((cleanupCore false (now - keep_days * 86400) keep s).1).actions
    rw [cleanupCore_false_actions]
    rw [List.filter_eq_self]
    intro r hr
    have h := survivor_not_deleted_again (now - keep_days * 86400) keep s r hr
    simp [h]

/-- C6: Exactly-once aggregation: the AGGREGATING step folds exactly the
records above the high-water mark into the buckets, each contributing to its
four (hour/day, source/action_type) buckets exactly once, and re-running the
step (e.g. after a crash-restart) changes no bucket count and skips no
record. -/
theorem aggregation_exactly_once (s : Store) (k : BucketKey) :
    aggregateStep (aggregateStep s) = aggregateStep s ∧
    aggCount ((aggregateStep s).aggregates) k
      = aggCount s.aggregates k
        + tally (s.actions.filter (fun r => decide (s.hwm < r.id))) k :=
  ⟨aggregateStep_idem s, aggCount_aggregateAll _ _ _⟩

/-- C7: Noise denylist drop before the store: the Chrome background message
handler returns without issuing any `logAction` call for `mouse_move`,
`mouse_enter`, `mouse_leave` and `dom_change` content-script messages (they
are dropped, not stored), while a meaningful event such as `mouse_click` is
logged. -/
theorem noise_denylist_dropped :
    handleContentMessage "mouse_move" = none ∧
    handleContentMessage "mouse_enter" = none ∧
    handleContentMessage "mouse_leave" = none ∧
    handleContentMessage "dom_change" = none ∧
    handleContentMessage "mouse_click" = some "mouse_click" :=
  ⟨rfl, rfl, rfl, rfl, rfl⟩

/-- C8: Sampling is a pure thinning: the rows a cleanup cycle leaves in the
Action Store are a sublist of the pre-cycle rows (hence each survivor keeps
its id, timestamp, source, action_type and context verbatim, and nothing is
synthesized), and every candidate the sampling step selects is still present
after the real cycle. -/
theorem sampling_pure_thinning (dry : Bool) (cutoff : Nat)
    (keep : ActionRecord → Bool) (s : Store) :
    List.Sublist (((cleanupCore dry cutoff keep s).1).actions) s.actions ∧
    (∀ r, r ∈ s.actions → r.timestamp < cutoff → keep r = true →
        r ∈ ((cleanupCore false cutoff keep s).1).actions) := by
  constructor
  · cases dry
    · rw [cleanupCore_false_actions]
      exact List.filter_sublist _
    · exact List.Sublist.refl _
  · intro r hmem hts hkeep
    rw [cleanupCore_false_actions, List.mem_filter, Bool.not_eq_true',
      toDelete_eq_false]
    refine ⟨hmem, fun h => h.2 ?_⟩
    rw [mem_samplingStep]
    exact ⟨r, by rw [aggregateStep_actions]; exact hmem, hts, hkeep, rfl⟩

/-- Witness for C8: with a sampling decision that retains the old candidate,
the candidate survives the real cycle at cutoff 100 with all fields intact. -/
theorem sampling_pure_thinning_witness :
    rOld ∈ ((cleanupCore false 100 keepAll sEx).1).actions :=
  (sampling_pure_thinning false 100 keepAll sEx).2 rOld (by decide) (by decide)
    (by decide)

/-- C9: Ingestion payload shape: the Chrome background script and the VS Code
extension both post log-action bodies whose top-level fields are exactly
source, action_type and context, with no top-level timestamp, so the
ingestion entrypoint's server-assigned-timestamp branch always applies to
them. -/
theorem client_payload_shape (a : String) (c : JVal) (now : Int) :
    jsonKeys (chromeLogActionBody a c) = ["source", "action_type", "context"] ∧
    jsonKeys (vscodeLogActionBody a c) = ["source", "action_type", "context"] ∧
    lookupField (chromeLogActionBody a c) "timestamp" = none ∧
    lookupField (vscodeLogActionBody a c) "timestamp" = none ∧
    assignTimestamp (chromeLogActionBody a c) now = now ∧
    assignTimestamp (vscodeLogActionBody a c) now = now :=
  ⟨rfl, rfl, rfl, rfl, rfl, rfl⟩

/-- C10: Frontend API client never throws: `ApiService.request` maps every
fetch outcome to a returned value: a parseable 2xx response (and only that)
yields `{data, success: true}` with no error, while a non-ok status, a
thrown failure or a JSON parse failure yields a response carrying only an
error. -/
theorem apiService_request_shape {α : Type} (o : FetchOutcome α) :
    (isSuccessOutcome o = true ∧
      (∃ d, request o
        = { data := some d, error := none, success := some true })) ∨
    (isSuccessOutcome o = false ∧
      (∃ e, request o = { data := none, error := some e, success := none })) := by
  cases o with
  | thrown isErr msg =>
      exact Or.inr ⟨rfl, ⟨if isErr then msg else "Unknown error", rfl⟩⟩
  | response ok status statusText body =>
      cases ok
      · exact Or.inr ⟨rfl, ⟨"HTTP " ++ toString status ++ ": " ++ statusText, rfl⟩⟩
      · cases body with
        | ok d => exact Or.inl ⟨rfl, ⟨d, rfl⟩⟩
        | error e => exact Or.inr ⟨rfl, ⟨e, rfl⟩⟩

end KT
